import Mathlib

/-!
Shallow embedding of `tp_utils` (DebugUtils.cpp, JSONUtils.cpp) and proofs of
the specification claims about it.

The embedding follows the C++ source: stateful code becomes explicit state
passing on record types, callbacks become event traces, and fallible
conversions return `Except`.  Definitions come first, theorems after.
-/

set_option autoImplicit false

namespace TpUtils

/-! ## JSON values and helpers (JSONUtils.cpp)

A model of `nlohmann::json` values and of the pieces of its API that
`getJSONStringList` / `getJSONArray` use: `j.value<json>(key, json())`,
range-based iteration over a `json` value, and conversion of a `json`
element to `std::string`.
-/

/-- A JSON value, mirroring the `nlohmann::json` value kinds used here. -/
inductive JSON where
  | null
  | boolean (b : Bool)
  | number (n : Int)
  | str (s : String)
  | arr (elems : List JSON)
  | obj (fields : List (String × JSON))

/-- First value stored under a key in an association list (like map lookup). -/
def lookupAssoc {α β : Type} [DecidableEq α] (k : α) : List (α × β) → Option β
  | [] => none
  | (k₂, v) :: rest => if k₂ = k then some v else lookupAssoc k rest

/-- `j.value<nlohmann::json>(key, nlohmann::json())`: on an object, the stored
value if the key is present, else the `null` default; on any non-object it
throws `type_error.306`, modelled as `Except.error`. -/
def jsonValueAt (j : JSON) (key : String) : Except Unit JSON :=
  match j with
  | JSON.obj fields =>
    match lookupAssoc key fields with
    | some v => Except.ok v
    | none => Except.ok JSON.null
  | _ => Except.error ()

/-- Range-based iteration over an `nlohmann::json` value: `null` is an empty
range, an array iterates its elements, an object iterates its member values,
and any primitive iterates as a one-element range holding the value itself. -/
def jsonRange (j : JSON) : List JSON :=
  match j with
  | JSON.null => []
  | JSON.arr elems => elems
  | JSON.obj fields => fields.map Prod.snd
  | _ => [j]

/-- Implicit conversion of a `json` element to `std::string`: succeeds only on
a string value, otherwise throws `type_error.302`. -/
def jsonToString (j : JSON) : Except Unit String :=
  match j with
  | JSON.str s => Except.ok s
  | _ => Except.error ()

/-- The push loop of `getJSONStringList`: each element is converted to
`std::string` and appended; the first failing conversion throws out of the
loop into the surrounding catch-all, keeping what was already pushed. -/
def pushStrings (elems : List JSON) (acc : List String) : List String :=
  match elems with
  | [] => acc
  | e :: rest =>
    match jsonToString e with
    | Except.ok s => pushStrings rest (acc ++ [s])
    | Except.error _ => acc

/-- `getJSONStringList(j, key)` from JSONUtils.cpp: look the key up with
`value`, iterate the result pushing string conversions, and swallow any
exception, returning whatever was accumulated so far. -/
def getJSONStringList (j : JSON) (key : String) : List String :=
  match jsonValueAt j key with
  | Except.error _ => []
  | Except.ok v => pushStrings (jsonRange v) []

/-- `getJSONArray(j, key)` from JSONUtils.cpp: look the key up with `value`
and iterate the result pushing each element; pushing a `json` copy cannot
throw, so the whole range is returned. -/
def getJSONArray (j : JSON) (key : String) : List JSON :=
  match jsonValueAt j key with
  | Except.error _ => []
  | Except.ok v => jsonRange v

/-- Spec-side description of what the push loop yields: the longest prefix of
the iterated elements that are strings, unwrapped. -/
def stringPrefixOf (elems : List JSON) : List String :=
  (elems.takeWhile fun e => match e with | JSON.str _ => true | _ => false).filterMap
    (fun e => match e with | JSON.str s => some s | _ => none)

/-! ## Message sinks (DebugUtils.cpp: DebugBuffer, DBG::Default)

The default sink's stream writes accumulate in a `DebugBuffer`
(`std::stringbuf`); the destructor streams `std::endl`, which appends the
line terminator and triggers `DebugBuffer::sync`.  `sync` either calls the
installed message handler or writes to the console and flushes, then clears
the buffer.  The observable effects are modelled as an event trace.
-/

/-- The classification enum from DebugUtils.h. -/
inductive MessageType where
  | Warning
  | Debug
deriving DecidableEq

/-- Observable effects of a sink flush. -/
inductive SinkEvent where
  | handlerCall (mt : MessageType) (text : String)
  | consoleWrite (text : String)
  | consoleFlush
deriving DecidableEq

/-- `DebugBuffer::sync` (DebugUtils.cpp:132-145): with a handler installed,
call it once — the call site hardcodes `MessageType::Warning` — else write the
accumulated string to `std::cout` and flush; in both cases clear the buffer.
Returns the emitted events and the buffer contents after the call. -/
def DebugBuffer.sync (handlerInstalled : Bool) (buf : String) :
    List SinkEvent × String :=
  if handlerInstalled then
    ([SinkEvent.handlerCall MessageType.Warning buf], "")
  else
    ([SinkEvent.consoleWrite buf, SinkEvent.consoleFlush], "")

/-- A stream write into the default sink: appends to the `DebugBuffer`. -/
def Default.append (buf : String) (piece : String) : String := buf ++ piece

/-- `DBG::Default::~Default` (DebugUtils.cpp:173-176): streams `std::endl`,
i.e. appends the line terminator and then flushes via `DebugBuffer::sync`. -/
def Default.destruct (handlerInstalled : Bool) (buf : String) :
    List SinkEvent × String :=
  DebugBuffer.sync handlerInstalled (buf ++ "\n")

/-- One complete log statement through the default sink: the classification
`mt` records whether the sink came from `produceWarning` or `produceDebug`
(both default factories are `FactoryTemplate<Default>`, so neither code path
depends on it), the caller's appends are folded into the buffer, and
destruction flushes. -/
def runStatement (mt : MessageType) (handlerInstalled : Bool)
    (appends : List String) : List SinkEvent :=
  match mt with
  | MessageType.Warning =>
    (Default.destruct handlerInstalled (appends.foldl Default.append "")).1
  | MessageType.Debug =>
    (Default.destruct handlerInstalled (appends.foldl Default.append "")).1

/-! ## DBG::Manager (DebugUtils.cpp:185-244)

The manager owns one factory per classification.  Factories are modelled by
identifiers; producing a sink draws a fresh allocation id, so distinct
`produce` calls return distinct sinks.  Destroyed factories are recorded in
a trace so ownership transfer is observable.
-/

/-- A sink returned by `FactoryBase::produce`: which factory made it and its
(fresh) allocation identity. -/
structure SinkHandle where
  factoryId : Nat
  allocId : Nat
deriving DecidableEq

/-- `Manager::Private`: the two installed factories, plus an allocation
counter modelling `new` and the trace of factories destroyed so far. -/
structure ManagerState where
  warningFactory : Nat
  debugFactory : Nat
  nextAlloc : Nat
  destroyedFactories : List Nat
deriving DecidableEq

/-- `Manager::setWarning` (DebugUtils.cpp:206-212): delete the previously
installed warning factory and install the argument in its place. -/
def Manager.setWarning (m : ManagerState) (f : Nat) : ManagerState :=
  { m with
    destroyedFactories := m.destroyedFactories ++ [m.warningFactory],
    warningFactory := f }

/-- `Manager::setDebug` (DebugUtils.cpp:223-229). -/
def Manager.setDebug (m : ManagerState) (f : Nat) : ManagerState :=
  { m with
    destroyedFactories := m.destroyedFactories ++ [m.debugFactory],
    debugFactory := f }

/-- `Manager::produceWarning` (DebugUtils.cpp:215-220): invoke the currently
installed warning factory, returning a freshly allocated sink. -/
def Manager.produceWarning (m : ManagerState) : SinkHandle × ManagerState :=
  (⟨m.warningFactory, m.nextAlloc⟩, { m with nextAlloc := m.nextAlloc + 1 })

/-- `Manager::produceDebug` (DebugUtils.cpp:232-237). -/
def Manager.produceDebug (m : ManagerState) : SinkHandle × ManagerState :=
  (⟨m.debugFactory, m.nextAlloc⟩, { m with nextAlloc := m.nextAlloc + 1 })

/-! ## DebugMode registry (DebugUtils.cpp:19-129)

Process-wide state: `enabledDebugModeObjects` (the stored flag table,
`unordered_map<string, unordered_map<int,bool>>`) and `debugModeObjects`
(the vector of live gates, in `push_back`, i.e. construction, order).
Gates are identified by a `Nat` id standing for the C++ object pointer;
`nextId` models fresh allocation.  The table callback's presence is a flag
and its invocations are an event trace.
-/

/-- The debug-type enum from DebugUtils.h. -/
inductive DebugType where
  | Console
  | Table
deriving DecidableEq

/-- A live `DebugMode` gate: `DebugMode::Private` plus its identity in the
registry (the object pointer). -/
structure Gate where
  id : Nat
  classPath : String
  debugType : DebugType
  enabled : Bool
deriving DecidableEq

/-- The registry's process-wide state. -/
structure RegState where
  enabledDebugModeObjects : List (String × List (DebugType × Bool))
  debugModeObjects : List Gate
  tableCallbackInstalled : Bool
  nextId : Nat

/-- Insert-or-overwrite into an association list, modelling
`unordered_map::operator[] = value` on the inner map. -/
def setAssoc {α β : Type} [DecidableEq α] (k : α) (v : β) :
    List (α × β) → List (α × β)
  | [] => [(k, v)]
  | (k₂, v₂) :: rest =>
    if k₂ = k then (k, v) :: rest else (k₂, v₂) :: setAssoc k v rest

/-- `enabledDebugModeObjects[classPath][int(debugType)] = enabled`: creates
the outer entry when absent, then insert-or-overwrite in the inner map. -/
def setFlag (p : String) (t : DebugType) (v : Bool) :
    List (String × List (DebugType × Bool)) → List (String × List (DebugType × Bool))
  | [] => [(p, [(t, v)])]
  | (p₂, inner) :: rest =>
    if p₂ = p then (p, setAssoc t v inner) :: rest
    else (p₂, inner) :: setFlag p t v rest

/-- The flag stored for a pair, as looked up by the `DebugMode` constructor
(DebugUtils.cpp:68-74): outer `find`, then inner `find`. -/
def lookupFlag (s : RegState) (p : String) (t : DebugType) : Option Bool :=
  match lookupAssoc p s.enabledDebugModeObjects with
  | none => none
  | some inner => lookupAssoc t inner

/-- The loop body of `DebugMode::enable` (DebugUtils.cpp:113-115): a gate
matching the exact pair gets its `enabled` flag overwritten in place. -/
def enableGate (p : String) (t : DebugType) (v : Bool) (g : Gate) : Gate :=
  if g.classPath = p ∧ g.debugType = t then { g with enabled := v } else g

/-- `DebugMode::enable` (DebugUtils.cpp:109-116): store the value in the flag
table and walk every live gate, updating those matching the exact pair. -/
def DebugMode.enable (s : RegState) (p : String) (t : DebugType) (v : Bool) :
    RegState :=
  { s with
    enabledDebugModeObjects := setFlag p t v s.enabledDebugModeObjects,
    debugModeObjects := s.debugModeObjects.map (enableGate p t v) }

/-- The `DebugMode` constructor (DebugUtils.cpp:63-75): the gate starts with
`enabled = false` (`std::atomic_bool enabled{false}`), is seeded from the
stored flag table when an entry for its pair exists, and is appended to the
live-gate vector.  Returns the new state and the new gate's identity. -/
def DebugMode.construct (s : RegState) (p : String) (t : DebugType) :
    RegState × Nat :=
  let seeded : Bool :=
    match lookupFlag s p t with
    | some v => v
    | none => false
  ({ s with
     debugModeObjects := s.debugModeObjects ++ [⟨s.nextId, p, t, seeded⟩],
     nextId := s.nextId + 1 },
   s.nextId)

/-- `tpRemoveOne`: remove the first gate with the given identity. -/
def removeOne (gid : Nat) : List Gate → List Gate
  | [] => []
  | g :: rest => if g.id = gid then rest else g :: removeOne gid rest

/-- The `DebugMode` destructor (DebugUtils.cpp:78-82): deregister from the
live-gate vector; the stored flag table is untouched. -/
def DebugMode.destroy (s : RegState) (gid : Nat) : RegState :=
  { s with debugModeObjects := removeOne gid s.debugModeObjects }

/-- Find a live gate by identity (dereferencing the C++ object pointer). -/
def findGate (s : RegState) (gid : Nat) : Option Gate :=
  s.debugModeObjects.find? (fun g => g.id = gid)

/-- `DebugMode::operator()` (DebugUtils.cpp:85-88) on a live gate: read its
`enabled` flag.  (A destroyed gate has no defined C++ behaviour; the model
answers `false`.) -/
def DebugMode.query (s : RegState) (gid : Nat) : Bool :=
  match findGate s gid with
  | some g => g.enabled
  | none => false

/-- Events observed by the table callback. -/
inductive TableEvent where
  | call (classPath : String) (debugType : DebugType) (payload : String)
deriving DecidableEq

/-- `DebugMode::installTableCallback` (DebugUtils.cpp:102-106), reduced to
the presence of a callback. -/
def DebugMode.installTableCallback (s : RegState) (installed : Bool) : RegState :=
  { s with tableCallbackInstalled := installed }

/-- `DebugMode::setTable` (DebugUtils.cpp:91-99) on a live gate: only when
the gate's `enabled` flag is set, and only when a table callback is
installed, forward the exact `(classPath, debugType, payload)` triple. -/
def DebugMode.setTable (s : RegState) (gid : Nat) (payload : String) :
    List TableEvent :=
  match findGate s gid with
  | none => []
  | some g =>
    if g.enabled then
      if s.tableCallbackInstalled then
        [TableEvent.call g.classPath g.debugType payload]
      else []
    else []

/-- `DebugMode::classPaths` (DebugUtils.cpp:119-129): walk the live-gate
vector in order and collect the class path of every gate of the given type. -/
def DebugMode.classPaths (s : RegState) (t : DebugType) : List String :=
  (s.debugModeObjects.filter (fun g => g.debugType = t)).map Gate.classPath

/-- Well-formedness of a reachable registry state: live gates carry
identities below the allocation counter, and no two alive at once share
one (C++ object pointers of distinct live objects differ). -/
def RegState.WF (s : RegState) : Prop :=
  (∀ g ∈ s.debugModeObjects, g.id < s.nextId) ∧
  (s.debugModeObjects.map Gate.id).Nodup

/-- The registry state at process start. -/
def initRegState : RegState :=
  { enabledDebugModeObjects := []
    debugModeObjects := []
    tableCallbackInstalled := false
    nextId := 0 }

/-! ## Helper lemmas -/

theorem pushStrings_eq_append (elems : List JSON) (acc : List String) :
    pushStrings elems acc = acc ++ stringPrefixOf elems := by
  induction elems generalizing acc with
  | nil => simp [pushStrings, stringPrefixOf]
  | cons e rest ih =>
    cases e <;> simp [pushStrings, stringPrefixOf, jsonToString, List.takeWhile, ih]

theorem enableGate_id (p : String) (t : DebugType) (v : Bool) (g : Gate) :
    (enableGate p t v g).id = g.id := by
  unfold enableGate
  split <;> rfl

theorem enableGate_enableGate (p : String) (t : DebugType) (v v₂ : Bool)
    (g : Gate) :
    enableGate p t v (enableGate p t v₂ g) = enableGate p t v g := by
  unfold enableGate
  by_cases h : g.classPath = p ∧ g.debugType = t <;> simp [h]

theorem find?_map_of_pred_invariant {α : Type} (f : α → α) (pred : α → Bool)
    (hf : ∀ a, pred (f a) = pred a) (l : List α) :
    (l.map f).find? pred = (l.find? pred).map f := by
  induction l with
  | nil => rfl
  | cons a rest ih =>
    by_cases h : pred a = true
    · simp [List.find?, hf, h]
    · simp only [Bool.not_eq_true] at h
      simp [List.find?, hf, h, ih]

theorem findGate_enable (s : RegState) (p : String) (t : DebugType) (v : Bool)
    (gid : Nat) :
    findGate (DebugMode.enable s p t v) gid
      = (findGate s gid).map (enableGate p t v) := by
  unfold findGate DebugMode.enable
  exact find?_map_of_pred_invariant _ _ (fun g => by rw [enableGate_id]) _

theorem find?_append_last {α : Type} (pred : α → Bool) (l : List α) (a : α)
    (hl : ∀ x ∈ l, pred x = false) (ha : pred a = true) :
    (l ++ [a]).find? pred = some a := by
  induction l with
  | nil => simp [List.find?, ha]
  | cons x rest ih =>
    have hx := hl x (by simp)
    simp only [List.cons_append, List.find?, hx]
    exact ih (fun y hy => hl y (by simp [hy]))

theorem findGate_construct_self (s : RegState) (p : String) (t : DebugType)
    (hwf : ∀ g ∈ s.debugModeObjects, g.id < s.nextId) :
    findGate (DebugMode.construct s p t).1 (DebugMode.construct s p t).2
      = some ⟨s.nextId, p, t,
          match lookupFlag s p t with
          | some v => v
          | none => false⟩ := by
  unfold findGate DebugMode.construct
  exact find?_append_last _ _ _
    (fun g hg => by
      have := hwf g hg
      simp [Nat.ne_of_lt this])
    (by simp)

theorem removeOne_append_last (l : List Gate) (g : Gate) (gid : Nat)
    (hl : ∀ x ∈ l, x.id ≠ gid) (hg : g.id = gid) :
    removeOne gid (l ++ [g]) = l := by
  induction l with
  | nil => simp [removeOne, hg]
  | cons x rest ih =>
    have hx := hl x (by simp)
    simp only [List.cons_append, removeOne, if_neg hx]
    exact congrArg (x :: ·) (ih (fun y hy => hl y (by simp [hy])))

theorem removeOne_sublist (gid : Nat) (l : List Gate) :
    (removeOne gid l).Sublist l := by
  induction l with
  | nil => simp [removeOne]
  | cons g rest ih =>
    simp only [removeOne]
    split
    · exact List.sublist_cons_self g rest
    · exact ih.cons₂ g

theorem lookupAssoc_setAssoc_ne {α β : Type} [DecidableEq α] (k k₂ : α)
    (v : β) (l : List (α × β)) (h : k₂ ≠ k) :
    lookupAssoc k₂ (setAssoc k v l) = lookupAssoc k₂ l := by
  induction l with
  | nil => simp [setAssoc, lookupAssoc, Ne.symm h]
  | cons kv rest ih =>
    obtain ⟨k₃, v₃⟩ := kv
    by_cases hk : k₃ = k
    · subst hk
      simp [setAssoc, lookupAssoc, Ne.symm h]
    · by_cases hk₂ : k₃ = k₂ <;> simp [setAssoc, lookupAssoc, hk, hk₂, ih, h]

theorem setAssoc_setAssoc {α β : Type} [DecidableEq α] (k : α) (v v₂ : β)
    (l : List (α × β)) :
    setAssoc k v (setAssoc k v₂ l) = setAssoc k v l := by
  induction l with
  | nil => simp [setAssoc]
  | cons kv rest ih =>
    obtain ⟨k₃, v₃⟩ := kv
    by_cases hk : k₃ = k <;> simp [setAssoc, hk, ih]

theorem lookupAssoc_setFlag_ne (p p₂ : String) (t : DebugType) (v : Bool)
    (tbl : List (String × List (DebugType × Bool))) (h : p₂ ≠ p) :
    lookupAssoc p₂ (setFlag p t v tbl) = lookupAssoc p₂ tbl := by
  induction tbl with
  | nil => simp [setFlag, lookupAssoc, Ne.symm h]
  | cons kv rest ih =>
    obtain ⟨p₃, inner⟩ := kv
    by_cases hp : p₃ = p
    · subst hp
      simp [setFlag, lookupAssoc, Ne.symm h]
    · by_cases hp₂ : p₃ = p₂ <;> simp [setFlag, lookupAssoc, hp, hp₂, ih, h]

theorem lookupAssoc_setFlag_self (p : String) (t : DebugType) (v : Bool)
    (tbl : List (String × List (DebugType × Bool))) :
    lookupAssoc p (setFlag p t v tbl)
      = some (setAssoc t v ((lookupAssoc p tbl).getD [])) := by
  induction tbl with
  | nil => simp [setFlag, lookupAssoc, setAssoc]
  | cons kv rest ih =>
    obtain ⟨p₃, inner⟩ := kv
    by_cases hp : p₃ = p
    · subst hp
      simp [setFlag, lookupAssoc]
    · simp [setFlag, lookupAssoc, hp, ih]

theorem setFlag_setFlag (p : String) (t : DebugType) (v v₂ : Bool)
    (tbl : List (String × List (DebugType × Bool))) :
    setFlag p t v (setFlag p t v₂ tbl) = setFlag p t v tbl := by
  induction tbl with
  | nil => simp [setFlag, setAssoc]
  | cons kv rest ih =>
    obtain ⟨p₃, inner⟩ := kv
    by_cases hp : p₃ = p <;> simp [setFlag, hp, ih, setAssoc_setAssoc]

theorem lookupFlag_enable_ne (s : RegState) (p : String) (t : DebugType)
    (v : Bool) (p₂ : String) (t₂ : DebugType) (h : p₂ ≠ p ∨ t₂ ≠ t) :
    lookupFlag (DebugMode.enable s p t v) p₂ t₂ = lookupFlag s p₂ t₂ := by
  by_cases hp : p₂ = p
  · subst hp
    have ht : t₂ ≠ t := by
      rcases h with h | h
      · exact absurd rfl h
      · exact h
    simp only [lookupFlag, DebugMode.enable, lookupAssoc_setFlag_self]
    cases hl : lookupAssoc p₂ s.enabledDebugModeObjects with
    | none => simp [setAssoc, lookupAssoc, Ne.symm ht]
    | some inner => simp [lookupAssoc_setAssoc_ne _ _ _ _ ht]
  · simp only [lookupFlag, DebugMode.enable]
    rw [lookupAssoc_setFlag_ne _ _ _ _ _ hp]

theorem initRegState_WF : initRegState.WF := by
  refine ⟨?_, ?_⟩ <;> simp [initRegState]

/-! ## Claim theorems -/

/-- Claim C10 as stated is false: with an entry that is a single string (not
an array), `getJSONStringList` iterates it as a one-element range and returns
a one-element list, not the empty vector. -/
theorem getJSONStringList_nonArray_counterexample :
    getJSONStringList (JSON.obj [("k", JSON.str "hello")]) "k" = ["hello"] ∧
    getJSONStringList (JSON.obj [("k", JSON.str "hello")]) "k" ≠ [] := by
  refine ⟨rfl, ?_⟩
  intro h
  simp [getJSONStringList, jsonValueAt, lookupAssoc, jsonRange, pushStrings,
    jsonToString] at h

/-- Claim C10, amended: both helpers return the empty vector when `j` is not
an object (the `value` call throws) or when the entry is absent or `null`;
neither propagates an exception (both are total functions here). Otherwise
the stored value is iterated as a range — array elements, object member
values, or a primitive as a singleton: `getJSONArray` returns the whole
range, and `getJSONStringList` returns the longest prefix of the range that
consists of strings, truncated at the first non-string element. -/
theorem getJSON_helpers_characterisation (j : JSON) (key : String) :
    (jsonValueAt j key = Except.error () →
      getJSONStringList j key = [] ∧ getJSONArray j key = []) ∧
    (jsonValueAt j key = Except.ok JSON.null →
      getJSONStringList j key = [] ∧ getJSONArray j key = []) ∧
    (∀ v, jsonValueAt j key = Except.ok v →
      getJSONArray j key = jsonRange v ∧
      getJSONStringList j key = stringPrefixOf (jsonRange v)) := by
  refine ⟨?_, ?_, ?_⟩
  · intro h
    simp [getJSONStringList, getJSONArray, h]
  · intro h
    simp [getJSONStringList, getJSONArray, h, jsonRange, pushStrings]
  · intro v h
    simp [getJSONStringList, getJSONArray, h, pushStrings_eq_append]

/-- Witness: a mixed array `["a", 3]` under key `"k"` gives the whole range to
`getJSONArray` and the string prefix `["a"]` to `getJSONStringList`. -/
theorem getJSON_helpers_characterisation_witness :
    getJSONArray (JSON.obj [("k", JSON.arr [JSON.str "a", JSON.number 3])]) "k"
      = [JSON.str "a", JSON.number 3] ∧
    getJSONStringList (JSON.obj [("k", JSON.arr [JSON.str "a", JSON.number 3])]) "k"
      = ["a"] := by
  have h := (getJSON_helpers_characterisation
      (JSON.obj [("k", JSON.arr [JSON.str "a", JSON.number 3])]) "k").2.2
      (JSON.arr [JSON.str "a", JSON.number 3]) rfl
  exact ⟨h.1.trans rfl, h.2.trans rfl⟩

/-- Claim C1 as stated is false: a statement produced via `produceDebug`, with
a handler installed, invokes the handler with classification `Warning`, not
`Debug` — `DebugBuffer::sync` hardcodes `MessageType::Warning`. -/
theorem runStatement_debug_classification_counterexample :
    runStatement MessageType.Debug true ["x"]
        = [SinkEvent.handlerCall MessageType.Warning "x\n"] ∧
    runStatement MessageType.Debug true ["x"]
        ≠ [SinkEvent.handlerCall MessageType.Debug "x\n"] := by
  constructor <;> decide

/-- Claim C1, amended: for every completed statement, when a handler is
installed the flush invokes it exactly once with the accumulated text, but
the classification passed is always `Warning`, for statements produced via
`produceWarning` and via `produceDebug` alike; with no handler installed the
text is written to standard console output and flushed immediately. -/
theorem runStatement_handler_dispatch (mt : MessageType) (appends : List String) :
    runStatement mt true appends
        = [SinkEvent.handlerCall MessageType.Warning
            (appends.foldl Default.append "" ++ "\n")] ∧
    runStatement mt false appends
        = [SinkEvent.consoleWrite (appends.foldl Default.append "" ++ "\n"),
           SinkEvent.consoleFlush] := by
  cases mt <;> simp [runStatement, Default.destruct, DebugBuffer.sync]

/-- Claim C7: with no message handler installed, a statement's composed text
reaches the console in exactly one write, with the line terminator appended
by the destructor before the final flush, and the sink's buffer is empty
after flushing. -/
theorem runStatement_console_single_write (mt : MessageType) (appends : List String) :
    runStatement mt false appends
        = [SinkEvent.consoleWrite (appends.foldl Default.append "" ++ "\n"),
           SinkEvent.consoleFlush] ∧
    (Default.destruct false (appends.foldl Default.append "")).2 = "" := by
  cases mt <;> simp [runStatement, Default.destruct, DebugBuffer.sync]

/-- Claim C8: `setWarning f` destroys the previously installed warning factory
and installs `f`; `produceWarning` returns a sink created by the factory
installed at the instant of the call, and sinks from successive calls are
freshly allocated (distinct); symmetrically for `setDebug`/`produceDebug`. -/
theorem manager_set_produce (m : ManagerState) (f : Nat) :
    (Manager.setWarning m f).destroyedFactories
        = m.destroyedFactories ++ [m.warningFactory] ∧
    (Manager.setWarning m f).warningFactory = f ∧
    (Manager.produceWarning (Manager.setWarning m f)).1.factoryId = f ∧
    (Manager.produceWarning m).1.factoryId = m.warningFactory ∧
    (Manager.produceWarning m).1.allocId
        ≠ (Manager.produceWarning (Manager.produceWarning m).2).1.allocId ∧
    (Manager.setDebug m f).destroyedFactories
        = m.destroyedFactories ++ [m.debugFactory] ∧
    (Manager.setDebug m f).debugFactory = f ∧
    (Manager.produceDebug (Manager.setDebug m f)).1.factoryId = f ∧
    (Manager.produceDebug m).1.factoryId = m.debugFactory ∧
    (Manager.produceDebug m).1.allocId
        ≠ (Manager.produceDebug (Manager.produceDebug m).2).1.allocId := by
  refine ⟨?_, ?_, ?_, ?_, ?_, ?_, ?_, ?_, ?_, ?_⟩ <;>
    simp [Manager.setWarning, Manager.setDebug, Manager.produceWarning,
      Manager.produceDebug]

/-- Claim C2: for a gate freshly constructed for `(p,t)`, a later
`enable(p,t,v)` is observed by the same live gate through `operator()`, and a
subsequent `enable(p,t,!v)` flips what that same gate observes. -/
theorem debugMode_enable_observed_by_live_gate (s : RegState) (p : String)
    (t : DebugType) (v : Bool) (hwf : s.WF) :
    DebugMode.query
        (DebugMode.enable (DebugMode.construct s p t).1 p t v)
        (DebugMode.construct s p t).2 = v ∧
    DebugMode.query
        (DebugMode.enable (DebugMode.enable (DebugMode.construct s p t).1 p t v)
          p t (!v))
        (DebugMode.construct s p t).2 = !v := by
  have h := findGate_construct_self s p t hwf.1
  constructor
  · simp [DebugMode.query, findGate_enable, h, enableGate]
  · simp [DebugMode.query, findGate_enable, h, enableGate]

/-- Witness for C2 at the initial state with pair `("a", Console)`. -/
theorem debugMode_enable_observed_by_live_gate_witness :
    DebugMode.query
        (DebugMode.enable (DebugMode.construct initRegState "a" DebugType.Console).1
          "a" DebugType.Console true)
        (DebugMode.construct initRegState "a" DebugType.Console).2 = true ∧
    DebugMode.query
        (DebugMode.enable
          (DebugMode.enable (DebugMode.construct initRegState "a" DebugType.Console).1
            "a" DebugType.Console true)
          "a" DebugType.Console false)
        (DebugMode.construct initRegState "a" DebugType.Console).2 = false :=
  debugMode_enable_observed_by_live_gate initRegState "a" DebugType.Console true
    initRegState_WF

/-- Claim C3: `enable(p,t,v)` is pair-exact — a live gate registered for a
different pair keeps its record (hence its enabled flag) unchanged, and the
stored flag-table entry of every other pair is unchanged. -/
theorem debugMode_enable_pair_exact (s : RegState) (p : String) (t : DebugType)
    (v : Bool) (gid : Nat) (g : Gate) (hfind : findGate s gid = some g)
    (hne : g.classPath ≠ p ∨ g.debugType ≠ t) :
    findGate (DebugMode.enable s p t v) gid = some g ∧
    DebugMode.query (DebugMode.enable s p t v) gid = g.enabled ∧
    (∀ p₂ t₂, p₂ ≠ p ∨ t₂ ≠ t →
      lookupFlag (DebugMode.enable s p t v) p₂ t₂ = lookupFlag s p₂ t₂) := by
  have hcond : ¬(g.classPath = p ∧ g.debugType = t) := by
    rintro ⟨h₁, h₂⟩
    rcases hne with h | h
    · exact h h₁
    · exact h h₂
  have hkeep : findGate (DebugMode.enable s p t v) gid = some g := by
    rw [findGate_enable, hfind]
    simp [enableGate, hcond]
  exact ⟨hkeep, by simp [DebugMode.query, hkeep],
    fun p₂ t₂ h => lookupFlag_enable_ne s p t v p₂ t₂ h⟩

/-- Witness for C3: enabling `("b", Console)` leaves a live gate for
`("a", Console)` disabled. -/
theorem debugMode_enable_pair_exact_witness :
    DebugMode.query
        (DebugMode.enable (DebugMode.construct initRegState "a" DebugType.Console).1
          "b" DebugType.Console true)
        (DebugMode.construct initRegState "a" DebugType.Console).2 = false :=
  (debugMode_enable_pair_exact
      (DebugMode.construct initRegState "a" DebugType.Console).1
      "b" DebugType.Console true
      (DebugMode.construct initRegState "a" DebugType.Console).2
      ⟨0, "a", DebugType.Console, false⟩ rfl
      (Or.inl (by decide))).2.1

/-- Claim C4: a freshly constructed gate's `operator()` answers the stored
flag-table value for its pair, defaulting to disabled when no `enable` has
named the pair; gate destruction leaves the stored flag table untouched, so
a gate built after destroying others still seeds from the same entry. -/
theorem debugMode_construct_seeds_from_table (s : RegState) (p : String)
    (t : DebugType) (hwf : s.WF) :
    DebugMode.query (DebugMode.construct s p t).1 (DebugMode.construct s p t).2
        = (lookupFlag s p t).getD false ∧
    (∀ gid, (DebugMode.destroy s gid).enabledDebugModeObjects
        = s.enabledDebugModeObjects) ∧
    (∀ gid,
      DebugMode.query (DebugMode.construct (DebugMode.destroy s gid) p t).1
          (DebugMode.construct (DebugMode.destroy s gid) p t).2
        = (lookupFlag s p t).getD false) := by
  refine ⟨?_, fun gid => rfl, fun gid => ?_⟩
  · have h := findGate_construct_self s p t hwf.1
    cases hl : lookupFlag s p t <;> simp [DebugMode.query, h, hl]
  · have hsub := removeOne_sublist gid s.debugModeObjects
    have hwf₂ : ∀ g ∈ (DebugMode.destroy s gid).debugModeObjects,
        g.id < (DebugMode.destroy s gid).nextId :=
      fun g hg => hwf.1 g (hsub.mem hg)
    have h := findGate_construct_self (DebugMode.destroy s gid) p t hwf₂
    have hfl : lookupFlag (DebugMode.destroy s gid) p t = lookupFlag s p t := rfl
    rw [hfl] at h
    cases hl : lookupFlag s p t <;> simp [DebugMode.query, h, hl]

/-- Witness for C4: after `enable("a", Console, true)` with no live gates, a
new gate for the pair starts enabled, and the flag table survives a (vacuous)
gate destruction. -/
theorem debugMode_construct_seeds_from_table_witness :
    DebugMode.query
        (DebugMode.construct (DebugMode.enable initRegState "a" DebugType.Console true)
          "a" DebugType.Console).1
        (DebugMode.construct (DebugMode.enable initRegState "a" DebugType.Console true)
          "a" DebugType.Console).2 = true := by
  have h := (debugMode_construct_seeds_from_table
      (DebugMode.enable initRegState "a" DebugType.Console true)
      "a" DebugType.Console
      (by refine ⟨?_, ?_⟩ <;> simp [DebugMode.enable, initRegState])).1
  exact h.trans (by decide)

/-- Claim C5: `classPaths(t)` lists the class paths of exactly the live gates
of type `t` in construction order — a new gate of type `t` appends its path,
a new gate of another type changes nothing for `t`, and destroying the gate
removes its entry again. -/
theorem debugMode_classPaths_live_in_order (s : RegState) (p : String)
    (t t₂ : DebugType) (hwf : s.WF) (hne : t₂ ≠ t) :
    DebugMode.classPaths (DebugMode.construct s p t).1 t
        = DebugMode.classPaths s t ++ [p] ∧
    DebugMode.classPaths (DebugMode.construct s p t).1 t₂
        = DebugMode.classPaths s t₂ ∧
    DebugMode.classPaths
        (DebugMode.destroy (DebugMode.construct s p t).1
          (DebugMode.construct s p t).2) t
        = DebugMode.classPaths s t := by
  refine ⟨?_, ?_, ?_⟩
  · simp [DebugMode.classPaths, DebugMode.construct, List.filter_append]
  · simp [DebugMode.classPaths, DebugMode.construct, List.filter_append,
      Ne.symm hne]
  · have hrm : removeOne s.nextId
        (s.debugModeObjects ++ [⟨s.nextId, p, t,
          match lookupFlag s p t with
          | some v => v
          | none => false⟩])
        = s.debugModeObjects :=
      removeOne_append_last _ _ _
        (fun x hx => Nat.ne_of_lt (hwf.1 x hx)) rfl
    simp [DebugMode.classPaths, DebugMode.construct, DebugMode.destroy, hrm]

/-- Witness for C5 at the initial state: the freshly constructed gate for
`("a", Console)` is enumerated for `Console` and not for `Table`. -/
theorem debugMode_classPaths_live_in_order_witness :
    DebugMode.classPaths (DebugMode.construct initRegState "a" DebugType.Console).1
        DebugType.Console = ["a"] ∧
    DebugMode.classPaths (DebugMode.construct initRegState "a" DebugType.Console).1
        DebugType.Table = [] ∧
    DebugMode.classPaths
        (DebugMode.destroy (DebugMode.construct initRegState "a" DebugType.Console).1
          (DebugMode.construct initRegState "a" DebugType.Console).2)
        DebugType.Console = [] := by
  have h := debugMode_classPaths_live_in_order initRegState "a"
    DebugType.Console DebugType.Table initRegState_WF (by decide)
  exact ⟨h.1, h.2.1, h.2.2⟩

/-- Claim C6: `setTable` on a disabled live gate never reaches the table
callback; on an enabled live gate with a callback installed it invokes it
exactly once with the exact `(classPath, debugType, payload)` triple; with
no callback installed the payload is silently dropped. -/
theorem debugMode_setTable_gating (s : RegState) (gid : Nat) (g : Gate)
    (payload : String) (hfind : findGate s gid = some g) :
    (g.enabled = false → DebugMode.setTable s gid payload = []) ∧
    (g.enabled = true → s.tableCallbackInstalled = true →
      DebugMode.setTable s gid payload
        = [TableEvent.call g.classPath g.debugType payload]) ∧
    (g.enabled = true → s.tableCallbackInstalled = false →
      DebugMode.setTable s gid payload = []) := by
  refine ⟨fun h => ?_, fun h h₂ => ?_, fun h h₂ => ?_⟩
  · simp [DebugMode.setTable, hfind, h]
  · simp [DebugMode.setTable, hfind, h, h₂]
  · simp [DebugMode.setTable, hfind, h, h₂]

/-- Witness for C6: an enabled gate for `("a", Console)` with the callback
installed forwards the exact triple once. -/
theorem debugMode_setTable_gating_witness :
    DebugMode.setTable
        (DebugMode.installTableCallback
          (DebugMode.construct (DebugMode.enable initRegState "a" DebugType.Console true)
            "a" DebugType.Console).1 true)
        0 "payload"
      = [TableEvent.call "a" DebugType.Console "payload"] :=
  (debugMode_setTable_gating
      (DebugMode.installTableCallback
        (DebugMode.construct (DebugMode.enable initRegState "a" DebugType.Console true)
          "a" DebugType.Console).1 true)
      0 ⟨0, "a", DebugType.Console, true⟩ "payload" (by decide)).2.1 rfl rfl

/-- Claim C9: `enable` is idempotent and last-write-wins on the whole
registry state — repeating a call changes nothing further, and of two
successive calls for the same pair only the last one matters. -/
theorem debugMode_enable_last_write_wins (s : RegState) (p : String)
    (t : DebugType) (v v₂ : Bool) :
    DebugMode.enable (DebugMode.enable s p t v) p t v
        = DebugMode.enable s p t v ∧
    DebugMode.enable (DebugMode.enable s p t v₂) p t v
        = DebugMode.enable s p t v := by
  have key : ∀ w : Bool, DebugMode.enable (DebugMode.enable s p t w) p t v
      = DebugMode.enable s p t v := by
    intro w
    obtain ⟨tbl, gates, cb, nid⟩ := s
    have hm : gates.map (enableGate p t v ∘ enableGate p t w)
        = gates.map (enableGate p t v) :=
      List.map_congr_left (fun g _ => enableGate_enableGate p t v w g)
    simp only [DebugMode.enable]
    rw [setFlag_setFlag, List.map_map, hm]
  exact ⟨key v, key v₂⟩

end TpUtils
